import Mathlib

/-!
# Verification of `atm-cli` directives (`src/directives.rs`)

Shallow embedding of the `single`, `batch` and `partition` directives of the
`atm-cli` tool. Pure data and control flow are translated directly from
`src/directives.rs`. The crate's `utils` module (`gen_sequences`,
`gen_partition_size`, `gen_path`, `BatchedMIDIArchive`) is not part of the
provided sources; those definitions are modelled from the specification and
carry a doc comment saying so. External `libatm` types (`MIDINote`,
`MIDINoteSequence`, `MIDIFile`) are modelled as plain records capturing the
constructor arguments used by the directives; filesystem writes and hash
computation are external effects and appear as explicit parameters.

Machine floating point: the default `max_count` in the batch directive is
computed in Rust as `(sequence.notes.len() as f32).powi(length as i32) as usize`.
We model the `f32` significand rounding exactly on natural numbers
(`f32roundNat`, round-to-nearest-even with a 24-bit significand) and `powi`
as iterated rounded multiplication.
-/

namespace Atm

/-- External `libatm::MIDIFormat` (only the constructor tags matter here). -/
inductive MIDIFormat where
  | Format0
  | Format1
  | Format2
deriving DecidableEq, Repr

/-- External `libatm::MIDINote`, reduced to an opaque pitch value: the
directives never inspect a note, they only move notes around. -/
structure MIDINote where
  pitch : Nat
deriving DecidableEq, Repr

/-- External `libatm::MIDINoteSequence`: an ordered list of notes. -/
structure MIDINoteSequence where
  notes : List MIDINote
deriving DecidableEq, Repr

/-- `libatm::MIDINoteSequence::new`. -/
def MIDINoteSequence.new (notes : List MIDINote) : MIDINoteSequence :=
  ⟨notes⟩

/-- External `libatm::MIDIFile`, as the record of its constructor arguments
`MIDIFile::new(sequence, format, tracks, division)`. -/
structure MIDIFile where
  sequence : MIDINoteSequence
  format : MIDIFormat
  tracks : Nat
  division : Nat
deriving DecidableEq, Repr

/-- `libatm::MIDIFile::new`. -/
def MIDIFile.new (sequence : MIDINoteSequence) (format : MIDIFormat)
    (tracks : Nat) (division : Nat) : MIDIFile :=
  ⟨sequence, format, tracks, division⟩

/-! ## `f32` arithmetic used for the default `max_count`

`f32` has a 24-bit significand, so every natural number `x ≤ 2^24` is exactly
representable, and a number with `k ≥ 25` binary digits is rounded to the
nearest multiple of `2 ^ (k - 24)`, ties to even. -/

/-- Base-2 logarithm by structural recursion on a fuel argument (so that it
computes inside the kernel): for `n ≥ 1` and `n < 2 ^ fuel`, `log2fuel fuel n`
is the position of the highest set bit of `n`. -/
def log2fuel : Nat → Nat → Nat
  | 0, _ => 0
  | fuel + 1, n => if n ≤ 1 then 0 else log2fuel fuel (n / 2) + 1

/-- Base-2 logarithm (highest set bit) for every `n < 2 ^ 160`, which covers
the full finite `f32` range. -/
def natLog2 (n : Nat) : Nat :=
  log2fuel 160 n

/-- Round a natural number to the nearest `f32`-representable value
(round-to-nearest, ties-to-even, 24-bit significand). -/
def f32roundNat (x : Nat) : Nat :=
  if x ≤ 2 ^ 24 then x
  else
    let e := natLog2 x - 23
    let q := x / 2 ^ e
    let r := x % 2 ^ e
    let half := 2 ^ (e - 1)
    if r < half then q * 2 ^ e
    else if half < r then (q + 1) * 2 ^ e
    else if q % 2 = 0 then q * 2 ^ e else (q + 1) * 2 ^ e

/-- Rust `f32::powi` on a nonnegative integer base, modelled as iterated
multiplication with `f32` rounding after every step (LLVM's `powi` performs a
sequence of rounded multiplications; on every input appearing in the theorems
below all multiplication orders agree, because every intermediate power is
exactly representable). -/
def f32powi (base : Nat) : Nat → Nat
  | 0 => 1
  | l + 1 => f32roundNat (f32powi base l * base)

/-- Rust's `as usize` cast of a nonnegative `f32` value: truncation, with
saturation at `usize::MAX` (the modelled `f32` values are already integers,
so truncation is the identity below the saturation bound). -/
def usizeOfF32 (x : Nat) : Nat :=
  min x (2 ^ 64 - 1)

/-- The default `max_count` of the batch directive when no COUNT argument is
supplied: `(sequence.notes.len() as f32).powi(length as i32) as usize`. -/
def defaultMaxCount (n length : Nat) : Nat :=
  usizeOfF32 (f32powi (f32roundNat n) length)

/-! ## Modelled `crate::utils` (module not present under `src/`) -/

/-- Modelled from the spec: `crate::utils::gen_sequences` (not in `src/`), the
SequenceGenerator. It yields every ordered length-`L` sequence over the note
alphabet, rightmost position incrementing fastest, so for alphabet `[A, B]`
and `L = 2` the order is `AA, AB, BA, BB`. -/
def gen_sequences (notes : List MIDINote) : Nat → List (List MIDINote)
  | 0 => [[]]
  | l + 1 => (gen_sequences notes l).flatMap fun s => notes.map fun x => s ++ [x]

/-- Modelled from the spec: `crate::utils::gen_partition_size` (not in `src/`),
the PartitionPlanner. It chooses the smallest `partition_size ≥ 1` such that
`n^L / 16^(partition_size * partition_depth) ≤ max_files`; with
`partition_depth = 0` the planner degenerates and the size is irrelevant
(fixed at 1 here). `max_files` is a positive real (fractional allowed)
planning budget, modelled as a rational. -/
def gen_partition_size (n length : Nat) (max_files : ℚ) (partition_depth : Nat) : Nat :=
  if partition_depth = 0 then 1
  else
    (((List.range (n * length + 2)).map (· + 1)).find? fun p =>
      (n ^ length : ℚ) ≤ max_files * 16 ^ (p * partition_depth)).getD 1

/-- Modelled from the spec: `crate::utils::gen_path` (not in `src/`), the
PathAssigner's directory part. It joins `partition_depth` successive
non-overlapping `partition_size`-character slices of the hash with `/`. -/
def gen_path (hash : String) (partition_size partition_depth : Nat) : String :=
  String.intercalate "/" <|
    (List.range partition_depth).map fun i =>
      String.mk ((hash.data.drop (i * partition_size)).take partition_size)

/-- `crate::utils::BatchedMIDIArchiveState` (not in `src/`): the writer's
two-state lifecycle from the spec. -/
inductive BatchedMIDIArchiveState where
  | Open
  | Closed
deriving DecidableEq, Repr

/-- Observable actions performed on the archive by the batch driver. -/
inductive ArchiveAction where
  | push (file : MIDIFile)
  | finish
deriving DecidableEq, Repr

/-- Modelled from the spec: `crate::utils::BatchedMIDIArchive` (not in
`src/`), the BatchedArchiveWriter. The model records the constructor
configuration, the Open/Closed lifecycle state, and the log of accepted
`push`/`finish` calls; the internal grouping of pushed files into flushed
batches is an I/O effect not observed by the directives. -/
structure BatchedMIDIArchive where
  target : String
  partition_depth : Nat
  max_files : ℚ
  partition_size : Nat
  batch_size : Nat
  state : BatchedMIDIArchiveState
  log : List ArchiveAction
deriving DecidableEq, Repr

/-- `BatchedMIDIArchive::new`: a fresh archive starts Open with nothing
pushed. -/
def BatchedMIDIArchive.new (target : String) (partition_depth : Nat)
    (max_files : ℚ) (partition_size : Nat) (batch_size : Nat) :
    BatchedMIDIArchive :=
  { target, partition_depth, max_files, partition_size, batch_size,
    state := .Open, log := [] }

/-- Modelled from the spec: `push` accepts an artifact while Open and is an
`InvalidState` failure while Closed. -/
def BatchedMIDIArchive.push (a : BatchedMIDIArchive) (file : MIDIFile) :
    Except String BatchedMIDIArchive :=
  match a.state with
  | .Open => .ok { a with log := a.log ++ [.push file] }
  | .Closed => .error "InvalidState"

/-- Modelled from the spec: `finish` flushes and transitions Open → Closed;
calling it again while Closed is an `InvalidState` failure. -/
def BatchedMIDIArchive.finish (a : BatchedMIDIArchive) :
    Except String BatchedMIDIArchive :=
  match a.state with
  | .Open => .ok { a with state := .Closed, log := a.log ++ [.finish] }
  | .Closed => .error "InvalidState"

/-- Number of `push` actions in an archive log. -/
def pushCountLog (log : List ArchiveAction) : Nat :=
  (log.filter fun act => match act with | .push _ => true | .finish => false).length

/-- Number of `finish` actions in an archive log. -/
def finishCountLog (log : List ArchiveAction) : Nat :=
  (log.filter fun act => match act with | .push _ => false | .finish => true).length

/-! ## Single directive -/

/-- `SingleDirectiveArgs` from `directives.rs`. -/
structure SingleDirectiveArgs where
  sequence : MIDINoteSequence
  target : String
deriving DecidableEq, Repr

/-- How a run of `atm_single` terminates: normally (after printing the
success line) or by `panic!` with a diagnostic message. -/
inductive SingleOutcome where
  | success
  | panicked (msg : String)
deriving DecidableEq, Repr

/-- Result of a run of `atm_single`: the MIDI file it constructed and how the
run terminated. -/
structure SingleRun where
  file : MIDIFile
  outcome : SingleOutcome
deriving DecidableEq, Repr

/-- `atm_single` from `directives.rs`. Writing the file to disk is an external
effect, so the result of `mfile.write_file(&args.target)` is passed in as
`writeResult`. -/
def atm_single (args : SingleDirectiveArgs) (writeResult : Except String Unit) :
    SingleRun :=
  let mfile := MIDIFile.new args.sequence .Format0 1 1
  match writeResult with
  | .error err =>
      { file := mfile,
        outcome := .panicked
          ("Failed to write MIDI file to path " ++ args.target ++ " (" ++ err ++ ")") }
  | .ok _ => { file := mfile, outcome := .success }

/-! ## Batch directive -/

/-- `BatchDirectiveArgs` from `directives.rs`. -/
structure BatchDirectiveArgs where
  sequence : MIDINoteSequence
  length : Nat
  target : String
  partition_depth : Nat
  max_files : ℚ
  partition_size : Nat
  batch_size : Nat
  max_count : Nat
  update : Nat
deriving DecidableEq, Repr

/-- The already-parsed command-line matches consumed by
`From<&clap::ArgMatches> for BatchDirectiveArgs` (string parsing of the
individual values is clap/`str::parse` territory, external to the
directives). `none` in an `Option` field means the argument was not
supplied. -/
structure BatchMatches where
  notes : List MIDINote
  length : Nat
  target : String
  partition_depth : Nat
  maxFilesArg : Option ℚ
  countArg : Option Nat
  batch_size : Nat
  updateArg : Option Nat
deriving DecidableEq, Repr

/-- `From<&clap::ArgMatches> for BatchDirectiveArgs` from `directives.rs`:
validates `length`, defaults `max_files` to 4096, plans the partition size,
resolves `max_count` (default: the `f32` power of the alphabet size,
supplied: rejected when 0), and defaults the progress-bar `update` interval
to 1000. A `panic!` is modelled as `Except.error` with the panic message. -/
def batchDirectiveArgsOf (m : BatchMatches) : Except String BatchDirectiveArgs :=
  let sequence := MIDINoteSequence.new m.notes
  if m.length < sequence.notes.length then
    .error ("Length must be >= the number of notes in the sequence ("
      ++ toString m.length ++ " < " ++ toString sequence.notes.length ++ ")")
  else
    let max_files :=
      match m.maxFilesArg with
      | none => (4096 : ℚ)
      | some files => files
    let partition_size :=
      gen_partition_size sequence.notes.length m.length max_files m.partition_depth
    match m.countArg with
    | some 0 => .error "Count must be greater than 0"
    | countArg =>
      let max_count :=
        match countArg with
        | none => defaultMaxCount sequence.notes.length m.length
        | some count => count
      let update :=
        match m.updateArg with
        | none => 1000
        | some duration => duration
      .ok { sequence, length := m.length, target := m.target,
            partition_depth := m.partition_depth, max_files, partition_size,
            batch_size := m.batch_size, max_count, update }

/-- The `for (idx, notes) in gen_sequences(..).enumerate()` loop body of
`atm_batch`: stop with `archive.finish()` as soon as `idx` reaches
`max_count` (checked before the push), otherwise build the `MIDIFile` with
`MIDIFormat::Format0`, 1 track, division 1 and push it. `unwrap` of a failed
push or finish is modelled as propagating the error. -/
def atmBatchLoop (max_count : Nat) :
    List (List MIDINote) → Nat → BatchedMIDIArchive →
    Except String BatchedMIDIArchive
  | [], _, archive => .ok archive
  | notes :: rest, idx, archive =>
    if idx = max_count then archive.finish
    else
      let seq := MIDINoteSequence.new notes
      let mfile := MIDIFile.new seq .Format0 1 1
      match archive.push mfile with
      | .ok archive => atmBatchLoop max_count rest (idx + 1) archive
      | .error e => .error e

/-- `atm_batch` from `directives.rs`: create the archive, run the enumeration
loop, then finish the archive if (and only if) it is still Open. The
progress bar is cosmetic and not modelled. -/
def atm_batch (args : BatchDirectiveArgs) : Except String BatchedMIDIArchive :=
  let archive := BatchedMIDIArchive.new args.target args.partition_depth
    args.max_files args.partition_size args.batch_size
  match atmBatchLoop args.max_count
    (gen_sequences args.sequence.notes args.length) 0 archive with
  | .ok archive =>
      match archive.state with
      | .Open => archive.finish
      | .Closed => .ok archive
  | .error e => .error e

/-- The files pushed into the archive by a run of `atm_batch` (empty if the
run failed). -/
def pushedFiles (run : Except String BatchedMIDIArchive) : List MIDIFile :=
  match run with
  | .ok a => a.log.filterMap fun act =>
      match act with
      | .push f => some f
      | .finish => none
  | .error _ => []

/-! ## Partition directive -/

/-- `PartitionDirectiveArgs` from `directives.rs`. -/
structure PartitionDirectiveArgs where
  sequence : MIDINoteSequence
  partition_depth : Nat
  max_files : ℚ
  partition_size : Nat
deriving DecidableEq, Repr

/-- The already-parsed command-line matches consumed by
`From<&clap::ArgMatches> for PartitionDirectiveArgs`. -/
structure PartitionMatches where
  notes : List MIDINote
  partition_depth : Nat
  maxFilesArg : Option ℚ
deriving DecidableEq, Repr

/-- `From<&clap::ArgMatches> for PartitionDirectiveArgs` from
`directives.rs`: defaults `max_files` to 4096 and plans the partition size,
passing the note count as both the alphabet-size and length arguments of
`gen_partition_size`. This construction has no failure path. -/
def partitionDirectiveArgsOf (m : PartitionMatches) : PartitionDirectiveArgs :=
  let sequence := MIDINoteSequence.new m.notes
  let max_files :=
    match m.maxFilesArg with
    | none => (4096 : ℚ)
    | some files => files
  let partition_size :=
    gen_partition_size sequence.notes.length sequence.notes.length max_files
      m.partition_depth
  { sequence, partition_depth := m.partition_depth, max_files, partition_size }

/-- Result of a run of `atm_partition`: the MIDI file it constructed and the
final `::: INFO: Path for sequence is {path}/{hash}.mid` line it printed. -/
structure PartitionRun where
  file : MIDIFile
  reported : String
deriving DecidableEq, Repr

/-- `atm_partition` from `directives.rs`. The content hash is produced by the
external `MIDIFile::gen_hash`, so it is passed in as `hash`. -/
def atm_partition (args : PartitionDirectiveArgs) (hash : String) : PartitionRun :=
  let mfile := MIDIFile.new args.sequence .Format0 1 1
  let path := gen_path hash args.partition_size args.partition_depth
  { file := mfile,
    reported := "::: INFO: Path for sequence is " ++ path ++ "/" ++ hash ++ ".mid" }

/-! ## Concrete inputs used by witnesses and counterexamples -/

/-- A batch-matches value with a valid length and COUNT = 0: the length check
passes and the count check fails. -/
def countZeroMatches : BatchMatches :=
  { notes := [⟨60⟩], length := 1, target := "target", partition_depth := 0,
    maxFilesArg := none, countArg := some 0, batch_size := 20, updateArg := none }

/-- A batch-matches value with a 7-note alphabet and length 9, no COUNT
supplied: the space size 7^9 = 40353607 exceeds 2^24 and is not exactly
representable in `f32`. -/
def sevenNoteMatches : BatchMatches :=
  { notes := [⟨60⟩, ⟨61⟩, ⟨62⟩, ⟨63⟩, ⟨64⟩, ⟨65⟩, ⟨66⟩], length := 9,
    target := "target", partition_depth := 2, maxFilesArg := none,
    countArg := none, batch_size := 20, updateArg := none }

/-- A batch-matches value with a 2-note alphabet and length 3, no COUNT
supplied, whose space size 2^3 = 8 is exactly representable in `f32`. -/
def smallMatches : BatchMatches :=
  { notes := [⟨60⟩, ⟨62⟩], length := 3, target := "target",
    partition_depth := 0, maxFilesArg := none, countArg := none,
    batch_size := 2, updateArg := none }

/-- Batch arguments over a 2-note alphabet with length 2 (space size 4) and
`max_count = 3`. -/
def batchArgsW : BatchDirectiveArgs :=
  { sequence := ⟨[⟨60⟩, ⟨62⟩]⟩, length := 2, target := "target",
    partition_depth := 1, max_files := 4, partition_size := 1,
    batch_size := 2, max_count := 3, update := 1000 }

/-- Batch arguments over a 1-note alphabet with length 1 and
`max_count = 1`. -/
def batchArgsW1 : BatchDirectiveArgs :=
  { sequence := ⟨[⟨60⟩]⟩, length := 1, target := "target",
    partition_depth := 0, max_files := 4096, partition_size := 1,
    batch_size := 10, max_count := 1, update := 1000 }

/-- Single-directive arguments for a one-note sequence. -/
def singleArgsW : SingleDirectiveArgs :=
  { sequence := ⟨[⟨60⟩]⟩, target := "out.mid" }

/-- Partition-directive arguments for a one-note sequence. -/
def partitionArgsW : PartitionDirectiveArgs :=
  { sequence := ⟨[⟨60⟩]⟩, partition_depth := 1, max_files := 4096,
    partition_size := 1 }

/-! ## Supporting lemmas -/

/-- Summing a constant map gives length times the constant. -/
theorem sum_map_const_length {α : Type} (l : List α) (n : Nat) :
    (l.map (fun _ : α => n)).sum = l.length * n := by
  induction l with
  | nil => simp
  | cons x xs ih => simp [ih, Nat.succ_mul, Nat.add_comm]

/-- The generator enumerates exactly `n ^ L` sequences. -/
theorem gen_sequences_length (notes : List MIDINote) :
    ∀ L : Nat, (gen_sequences notes L).length = notes.length ^ L
  | 0 => by simp [gen_sequences]
  | L + 1 => by
    simp [gen_sequences, List.length_flatMap, Function.comp_def,
      sum_map_const_length, gen_sequences_length notes L,
      Nat.pow_succ, Nat.mul_comm]

/-- Full characterization of the enumeration loop of `atm_batch` started at
index `idx ≤ max_count` on an Open archive: it pushes the first
`max_count - idx` sequences (or all of them, whichever is fewer), and calls
`finish` exactly when the early stop fires before the list runs out. -/
theorem atmBatchLoop_spec (max_count : Nat) :
    ∀ (seqs : List (List MIDINote)) (idx : Nat) (a : BatchedMIDIArchive),
      a.state = .Open → idx ≤ max_count →
      atmBatchLoop max_count seqs idx a = .ok
        { a with
          state := if max_count - idx < seqs.length then .Closed else .Open
          log := a.log
            ++ (seqs.take (max_count - idx)).map
              (fun s => ArchiveAction.push (MIDIFile.new (MIDINoteSequence.new s) .Format0 1 1))
            ++ if max_count - idx < seqs.length then [ArchiveAction.finish] else [] }
  | [], idx, a, hOpen, _ => by
    cases a
    simp_all [atmBatchLoop]
  | s :: rest, idx, a, hOpen, hle => by
    by_cases h : idx = max_count
    · subst h
      cases a
      simp_all [atmBatchLoop, BatchedMIDIArchive.finish]
    · have hlt : idx < max_count := Nat.lt_of_le_of_ne hle h
      have hk : max_count - idx = (max_count - (idx + 1)) + 1 := by omega
      have ih := atmBatchLoop_spec max_count rest (idx + 1)
        { a with log := a.log ++ [ArchiveAction.push
            (MIDIFile.new (MIDINoteSequence.new s) .Format0 1 1)] }
        hOpen hlt
      cases a
      simp_all [atmBatchLoop, BatchedMIDIArchive.push, hk, Except.bind]

/-- Full characterization of `atm_batch`: the run always succeeds, ends
Closed, and its log is the pushes of the first `max_count` generated
sequences (or all of them) followed by a single `finish`. -/
theorem atm_batch_spec (args : BatchDirectiveArgs) :
    atm_batch args = .ok
      { target := args.target, partition_depth := args.partition_depth,
        max_files := args.max_files, partition_size := args.partition_size,
        batch_size := args.batch_size, state := .Closed,
        log := ((gen_sequences args.sequence.notes args.length).take args.max_count).map
            (fun s => ArchiveAction.push (MIDIFile.new (MIDINoteSequence.new s) .Format0 1 1))
          ++ [ArchiveAction.finish] } := by
  have h := atmBatchLoop_spec args.max_count (gen_sequences args.sequence.notes args.length)
    0 (BatchedMIDIArchive.new args.target args.partition_depth args.max_files
      args.partition_size args.batch_size) rfl (Nat.zero_le _)
  by_cases hlt : args.max_count < (gen_sequences args.sequence.notes args.length).length
  · simp [hlt, BatchedMIDIArchive.new] at h
    simp [atm_batch, h, BatchedMIDIArchive.new]
  · simp [hlt, BatchedMIDIArchive.new] at h
    have htake : (gen_sequences args.sequence.notes args.length).take args.max_count
        = gen_sequences args.sequence.notes args.length :=
      List.take_of_length_le (Nat.le_of_not_lt hlt)
    simp [atm_batch, h, BatchedMIDIArchive.new, BatchedMIDIArchive.finish, htake]
    omega

/-- A log of pushes followed by one `finish` has as many pushes as files. -/
theorem pushCountLog_shape (files : List MIDIFile) :
    pushCountLog (files.map ArchiveAction.push ++ [ArchiveAction.finish]) = files.length := by
  induction files with
  | nil => simp [pushCountLog]
  | cons f fs ih => simpa [pushCountLog] using ih

/-- A log of pushes followed by one `finish` has exactly one `finish`. -/
theorem finishCountLog_shape (files : List MIDIFile) :
    finishCountLog (files.map ArchiveAction.push ++ [ArchiveAction.finish]) = 1 := by
  induction files with
  | nil => simp [finishCountLog]
  | cons f fs ih => simp [finishCountLog] at ih ⊢

/-- Rounding is the identity on exactly representable values. -/
theorem f32roundNat_eq_of_le {x : Nat} (h : x ≤ 2 ^ 24) : f32roundNat x = x := by
  unfold f32roundNat
  rw [if_pos h]

/-- The rounded power computation is exact while every intermediate power
fits in the 24-bit significand. -/
theorem f32powi_eq_pow (base : Nat) :
    ∀ L : Nat, (∀ i, i ≤ L → base ^ i ≤ 2 ^ 24) → f32powi base L = base ^ L
  | 0, _ => by simp [f32powi]
  | L + 1, h => by
    rw [f32powi, f32powi_eq_pow base L (fun i hi => h i (Nat.le_succ_of_le hi)),
      ← Nat.pow_succ, f32roundNat_eq_of_le (h (L + 1) (Nat.le_refl _))]

/-! ## Claims -/

/-- C1: for every batch run with `max_count ≥ 1`, `atm_batch` succeeds and
pushes exactly `min max_count (n ^ L)` artifacts into the archive, where `n`
is the number of notes in the alphabet sequence and `L` the length: the
early-stop check `idx == max_count` runs before the push of the sequence at
index `max_count`, and when `max_count ≥ n ^ L` the loop exhausts the space
and pushes all `n ^ L` artifacts. -/
theorem batch_push_count (args : BatchDirectiveArgs) (h : 1 ≤ args.max_count) :
    ∃ a, atm_batch args = .ok a ∧
      pushCountLog a.log = min args.max_count (args.sequence.notes.length ^ args.length) := by
  refine ⟨_, atm_batch_spec args, ?_⟩
  have hm : ((gen_sequences args.sequence.notes args.length).take args.max_count).map
      (fun s => ArchiveAction.push (MIDIFile.new (MIDINoteSequence.new s) .Format0 1 1))
      = (((gen_sequences args.sequence.notes args.length).take args.max_count).map
          (fun s => MIDIFile.new (MIDINoteSequence.new s) .Format0 1 1)).map
          ArchiveAction.push := by
    simp [List.map_map, Function.comp_def]
  rw [hm, pushCountLog_shape]
  simp [gen_sequences_length]

/-- Witness for C1: on a 2-note alphabet with length 2 and `max_count = 3`,
the run pushes `min 3 4 = 3` artifacts. -/
theorem batch_push_count_witness :
    1 ≤ batchArgsW.max_count
    ∧ ∃ a, atm_batch batchArgsW = .ok a ∧
        pushCountLog a.log
          = min batchArgsW.max_count (batchArgsW.sequence.notes.length ^ batchArgsW.length) :=
  ⟨by decide, batch_push_count batchArgsW (by decide)⟩

/-- C2: every run of `atm_batch` succeeds (so the driver never calls `push`
or `finish` on a Closed archive, which would fail with `InvalidState`), and
its action log consists of pushes followed by a single final `finish`: the
archive is finished exactly once and no push ever follows the finish. -/
theorem batch_finishes_once (args : BatchDirectiveArgs) :
    ∃ (a : BatchedMIDIArchive) (files : List MIDIFile), atm_batch args = .ok a ∧
      a.log = files.map ArchiveAction.push ++ [ArchiveAction.finish] ∧
      finishCountLog a.log = 1 := by
  have h := atm_batch_spec args
  have hm : ((gen_sequences args.sequence.notes args.length).take args.max_count).map
      (fun s => ArchiveAction.push (MIDIFile.new (MIDINoteSequence.new s) .Format0 1 1))
      = (((gen_sequences args.sequence.notes args.length).take args.max_count).map
          (fun s => MIDIFile.new (MIDINoteSequence.new s) .Format0 1 1)).map
          ArchiveAction.push := by
    simp [List.map_map, Function.comp_def]
  refine ⟨_, ((gen_sequences args.sequence.notes args.length).take args.max_count).map
      (fun s => MIDIFile.new (MIDINoteSequence.new s) .Format0 1 1), h, ?_, ?_⟩
  · simpa using hm
  · show finishCountLog (_ ++ [ArchiveAction.finish]) = 1
    rw [hm, finishCountLog_shape]

/-- C3 counterexample: constructing the batch arguments can fail even though
the supplied length is not less than the number of notes — a supplied COUNT
of 0 also aborts the construction — so failure is not equivalent to
`length < number of notes`. -/
theorem batch_args_error_without_short_length :
    (∃ e, batchDirectiveArgsOf countZeroMatches = .error e)
    ∧ ¬(countZeroMatches.length < countZeroMatches.notes.length) :=
  ⟨⟨"Count must be greater than 0", rfl⟩, by decide⟩

/-- C3 (amended): constructing the batch directive's arguments fails if and
only if the supplied length is strictly less than the number of notes in the
supplied sequence or a COUNT of 0 was supplied; the length check runs first,
during argument construction, before the planner, archive creation, or any
filesystem I/O. -/
theorem batch_args_error_iff (m : BatchMatches) :
    (∃ e, batchDirectiveArgsOf m = .error e) ↔
      (m.length < m.notes.length ∨ m.countArg = some 0) := by
  obtain ⟨notes, len, target, pd, mf, c, bs, upd⟩ := m
  by_cases h1 : len < notes.length
  · simp [batchDirectiveArgsOf, MIDINoteSequence.new, h1]
  · match c with
    | none => simp [batchDirectiveArgsOf, MIDINoteSequence.new, h1]
    | some 0 => simp [batchDirectiveArgsOf, MIDINoteSequence.new, h1]
    | some (k + 1) => simp [batchDirectiveArgsOf, MIDINoteSequence.new, h1]

/-- Witness for C3 (amended): the equivalence applied to a concrete input
whose COUNT is 0. -/
theorem batch_args_error_iff_witness :
    ∃ e, batchDirectiveArgsOf countZeroMatches = .error e :=
  (batch_args_error_iff countZeroMatches).mpr (Or.inr rfl)

/-- C4: with a valid length, a supplied COUNT of 0 aborts the construction
with the diagnostic "Count must be greater than 0", and every supplied
COUNT ≥ 1 is accepted as `max_count` unchanged. -/
theorem batch_count_arg (notes : List MIDINote) (target : String) (pd : Nat)
    (mf : Option ℚ) (bs : Nat) (upd : Option Nat) (extra c : Nat) :
    batchDirectiveArgsOf
        ⟨notes, notes.length + extra, target, pd, mf, some 0, bs, upd⟩
      = .error "Count must be greater than 0"
    ∧ ∃ a, batchDirectiveArgsOf
          ⟨notes, notes.length + extra, target, pd, mf, some (c + 1), bs, upd⟩
        = .ok a ∧ a.max_count = c + 1 := by
  have h1 : ¬(notes.length + extra < notes.length) := by omega
  constructor
  · simp [batchDirectiveArgsOf, MIDINoteSequence.new, h1]
  · simp [batchDirectiveArgsOf, MIDINoteSequence.new, h1]

/-- C5 counterexample: with a 7-note alphabet and length 9 and no COUNT
supplied, the default `max_count` is 40353608, while the full space size is
`7 ^ 9 = 40353607`: the `f32` power computation rounds to the nearest
representable value, so the default is not exactly `n ^ L`. -/
theorem batch_default_count_not_exact :
    sevenNoteMatches.countArg = none
    ∧ (batchDirectiveArgsOf sevenNoteMatches).toOption.map (fun a => a.max_count)
        = some 40353608
    ∧ sevenNoteMatches.notes.length ^ sevenNoteMatches.length = 40353607 := by
  exact ⟨rfl, by decide, by decide⟩

/-- C5 (amended): when no COUNT argument is supplied, the default `max_count`
is the `f32` approximation of `n ^ L`; it equals `n ^ L` exactly whenever
`n ^ L ≤ 2 ^ 24` (so that every intermediate power is exactly representable
in the 24-bit `f32` significand). -/
theorem batch_default_count (m : BatchMatches) (hc : m.countArg = none)
    (hn : 1 ≤ m.notes.length) (hlen : m.notes.length ≤ m.length)
    (hsmall : m.notes.length ^ m.length ≤ 2 ^ 24) :
    ∃ a, batchDirectiveArgsOf m = .ok a ∧
      a.max_count = m.notes.length ^ m.length := by
  obtain ⟨notes, len, target, pd, mf, c, bs, upd⟩ := m
  simp only at hc hn hlen hsmall
  subst hc
  have h1 : ¬(len < notes.length) := by omega
  have hbase : notes.length ≤ 2 ^ 24 :=
    le_trans (Nat.le_self_pow (by omega) _) hsmall
  have hpows : ∀ i, i ≤ len → notes.length ^ i ≤ 2 ^ 24 := fun i hi =>
    le_trans (Nat.pow_le_pow_right hn hi) hsmall
  have hdef : defaultMaxCount notes.length len = notes.length ^ len := by
    rw [defaultMaxCount, f32roundNat_eq_of_le hbase, f32powi_eq_pow _ _ hpows,
      usizeOfF32, min_eq_left (le_trans hsmall (by norm_num))]
  simp [batchDirectiveArgsOf, MIDINoteSequence.new, h1, hdef]

/-- Witness for C5 (amended): a 2-note alphabet with length 3 gives the exact
default `max_count = 2 ^ 3 = 8`. -/
theorem batch_default_count_witness :
    smallMatches.countArg = none
    ∧ 1 ≤ smallMatches.notes.length
    ∧ smallMatches.notes.length ≤ smallMatches.length
    ∧ smallMatches.notes.length ^ smallMatches.length ≤ 2 ^ 24
    ∧ ∃ a, batchDirectiveArgsOf smallMatches = .ok a ∧
        a.max_count = smallMatches.notes.length ^ smallMatches.length :=
  ⟨rfl, by decide, by decide, by decide,
    batch_default_count smallMatches rfl (by decide) (by decide) (by decide)⟩

/-- C6: for every hash and partition geometry, the path reported by the
partition directive is the partition directory components followed by the
full content hash as the leaf file name with the `.mid` extension. -/
theorem partition_reported_path_suffix (args : PartitionDirectiveArgs) (hash : String) :
    ∃ dirs : String,
      (atm_partition args hash).reported
        = "::: INFO: Path for sequence is " ++ dirs ++ "/" ++ hash ++ ".mid"
      ∧ dirs = gen_path hash args.partition_size args.partition_depth :=
  ⟨gen_path hash args.partition_size args.partition_depth, rfl, rfl⟩

/-- C7: when no MAX_FILES argument is supplied, `max_files` defaults to 4096
in both the batch and the partition directive; when supplied, the parsed
value is used unchanged. -/
theorem max_files_default (notes : List MIDINote) (target : String) (pd : Nat)
    (v : ℚ) (bs : Nat) (upd : Option Nat) (extra c : Nat) :
    (partitionDirectiveArgsOf ⟨notes, pd, none⟩).max_files = 4096
    ∧ (partitionDirectiveArgsOf ⟨notes, pd, some v⟩).max_files = v
    ∧ (∃ a, batchDirectiveArgsOf
          ⟨notes, notes.length + extra, target, pd, none, some (c + 1), bs, upd⟩
        = .ok a ∧ a.max_files = 4096)
    ∧ (∃ a, batchDirectiveArgsOf
          ⟨notes, notes.length + extra, target, pd, some v, some (c + 1), bs, upd⟩
        = .ok a ∧ a.max_files = v) := by
  have h1 : ¬(notes.length + extra < notes.length) := by omega
  exact ⟨rfl, rfl,
    by simp [batchDirectiveArgsOf, MIDINoteSequence.new, h1],
    by simp [batchDirectiveArgsOf, MIDINoteSequence.new, h1]⟩

/-- C8: `atm_single` terminates abnormally if and only if writing the MIDI
file to the target path returns an error; the failure diagnostic spells out
the offending target path and the underlying error, and on a successful
write the run completes normally. -/
theorem single_outcome_iff (args : SingleDirectiveArgs) (w : Except String Unit) :
    ((∃ msg, (atm_single args w).outcome = .panicked msg) ↔ (∃ err, w = .error err))
    ∧ (∀ err, w = .error err →
        (atm_single args w).outcome = .panicked
          ("Failed to write MIDI file to path " ++ args.target ++ " (" ++ err ++ ")"))
    ∧ (w = .ok () → (atm_single args w).outcome = .success) := by
  refine ⟨?_, ?_, ?_⟩
  · cases w <;> simp [atm_single]
  · intro err herr
    subst herr
    rfl
  · intro hok
    subst hok
    rfl

/-- Witness for C8: a failed write to `out.mid` panics with the path and the
underlying error in the diagnostic. -/
theorem single_outcome_iff_witness :
    (atm_single singleArgsW (.error "disk full")).outcome
      = .panicked ("Failed to write MIDI file to path " ++ singleArgsW.target
          ++ " (" ++ "disk full" ++ ")") :=
  (single_outcome_iff singleArgsW (.error "disk full")).2.1 "disk full" rfl

/-- C9: the partition directive plans its geometry with the target length set
equal to the alphabet size — it passes the number of notes as both the
alphabet-size and length arguments of the planner — so its partition size
agrees with the batch directive's whenever the batch length equals the note
count. -/
theorem partition_plans_length_eq_note_count (notes : List MIDINote) (pd : Nat)
    (mf : Option ℚ) (target : String) (bs : Nat) (upd : Option Nat) (c : Nat) :
    (partitionDirectiveArgsOf ⟨notes, pd, mf⟩).partition_size
      = gen_partition_size notes.length notes.length
          (match mf with | none => (4096 : ℚ) | some v => v) pd
    ∧ ∃ a, batchDirectiveArgsOf ⟨notes, notes.length, target, pd, mf, some (c + 1), bs, upd⟩
        = .ok a
      ∧ a.partition_size = (partitionDirectiveArgsOf ⟨notes, pd, mf⟩).partition_size := by
  have h1 : ¬(notes.length < notes.length) := by omega
  exact ⟨rfl, by simp [batchDirectiveArgsOf, partitionDirectiveArgsOf,
    MIDINoteSequence.new, h1]⟩

/-- C10: every MIDI file constructed by any of the three directives is built
with the same fixed encoder parameters — `MIDIFormat::Format0`, 1 track and
division 1 — for every input. -/
theorem all_directive_files_fixed_params (sargs : SingleDirectiveArgs)
    (w : Except String Unit) (pargs : PartitionDirectiveArgs) (hash : String)
    (bargs : BatchDirectiveArgs) :
    ((atm_single sargs w).file.format = .Format0 ∧ (atm_single sargs w).file.tracks = 1
      ∧ (atm_single sargs w).file.division = 1)
    ∧ ((atm_partition pargs hash).file.format = .Format0
      ∧ (atm_partition pargs hash).file.tracks = 1
      ∧ (atm_partition pargs hash).file.division = 1)
    ∧ (∀ f ∈ pushedFiles (atm_batch bargs),
        f.format = .Format0 ∧ f.tracks = 1 ∧ f.division = 1) := by
  refine ⟨?_, ?_, ?_⟩
  · cases w <;> simp [atm_single, MIDIFile.new]
  · simp [atm_partition, MIDIFile.new]
  · intro f hf
    rw [atm_batch_spec] at hf
    simp [pushedFiles] at hf
    obtain ⟨act, hmem, hact⟩ := hf
    obtain ⟨s, _, rfl⟩ := List.mem_map.mp (List.take_subset _ _ hmem)
    simp at hact
    rw [← hact]
    simp [MIDIFile.new]

/-- Witness for C10: the file the batch run over a 1-note alphabet pushes is
a member of its pushed files and carries the fixed parameters. -/
theorem all_directive_files_fixed_params_witness :
    (MIDIFile.new (MIDINoteSequence.new [⟨60⟩]) .Format0 1 1).format = .Format0
    ∧ (MIDIFile.new (MIDINoteSequence.new [⟨60⟩]) .Format0 1 1).tracks = 1
    ∧ (MIDIFile.new (MIDINoteSequence.new [⟨60⟩]) .Format0 1 1).division = 1 :=
  (all_directive_files_fixed_params singleArgsW (.ok ()) partitionArgsW "abcdef"
    batchArgsW1).2.2 (MIDIFile.new (MIDINoteSequence.new [⟨60⟩]) .Format0 1 1)
    (by decide)

end Atm
